import Mathlib

/-!
Verification of the PubMed paper-fetching pipeline (`pubmed_paper_fetcher/fetcher.py`).

The Python source is shallowly embedded: the XML detail document is modelled as a
tree of optional fields mirroring exactly the nodes the extractor reads, the
on-disk JSON cache as an association list from identifier to an optional
(timestamp, payload) entry (`none` standing for an undecodable file), network
effects as an explicit `World` record giving the outcome of the search request
and of each per-identifier detail request, and exceptions as `Except`/`Option`
results.  All definitions are executable and follow the source line by line.
-/

set_option autoImplicit false

/-! ## Character-list substring machinery

Python's `keyword in affiliation_lower` is substring containment; we model
strings by their character lists and decide containment recursively. -/

/-- Boolean test that `n` is a prefix of `h`, on character lists. -/
def isPrefixOfCL : List Char → List Char → Bool
  | [], _ => true
  | _ :: _, [] => false
  | a :: as, b :: bs => a == b && isPrefixOfCL as bs

/-- Boolean test that `n` occurs as a contiguous substring of `h`
(Python's `n in h` on strings). -/
def containsSub (n : List Char) : List Char → Bool
  | [] => isPrefixOfCL n []
  | c :: t => isPrefixOfCL n (c :: t) || containsSub n t

/-- Python's `s.lower()` restricted to ASCII, as the character list of the
lowered string. -/
def lowerStr (s : String) : List Char := s.data.map Char.toLower

/-! ## AffiliationClassifier (`_is_company_affiliation`) -/

/-- The keyword list hard-coded in `_is_company_affiliation`, verbatim. -/
def companyKeywords : List String :=
  ["pharmaceutical", "biotech", "biotechnology", "pharma", "drug company",
   "biopharmaceutical", "biopharma", "pharmaceuticals", "biopharmaceuticals",
   "pharmaceutical company", "biotech company", "biotechnology company",
   "drug development", "drug discovery", "clinical development",
   "research and development", "R&D", "research & development"]

/-- `_is_company_affiliation`: lower-case the affiliation text and test each
keyword (as written, not lowered) for substring occurrence. -/
def is_company_affiliation (affiliation : String) : Bool :=
  let affiliation_lower := lowerStr affiliation
  companyKeywords.any (fun keyword => containsSub keyword.data affiliation_lower)

/-! ## Calendar dates and `datetime.strptime(_, "%Y-%m-%d")` -/

/-- A calendar date, standing for the Python `datetime` values the fetcher
builds (the time-of-day part is never populated by the source). -/
structure Date where
  year : Nat
  month : Nat
  day : Nat
deriving DecidableEq

/-- Accumulate a decimal digit list into a number. -/
def natOfDigitsAux : List Char → Nat → Nat
  | [], acc => acc
  | c :: cs, acc => natOfDigitsAux cs (acc * 10 + (c.toNat - 48))

/-- Parse one `strptime` numeric field: nonempty, all digits, at most
`maxLen` digits. -/
def parseField (s : String) (maxLen : Nat) : Option Nat :=
  let l := s.data
  if 0 < l.length ∧ l.length ≤ maxLen ∧ l.all Char.isDigit = true then
    some (natOfDigitsAux l 0)
  else none

/-- Gregorian leap-year test. -/
def isLeapYear (y : Nat) : Bool := (y % 4 == 0 && y % 100 != 0) || y % 400 == 0

/-- Days in a month, as validated by `datetime`. -/
def daysInMonth (y m : Nat) : Nat :=
  if m = 2 then (if isLeapYear y then 29 else 28)
  else if m = 4 ∨ m = 6 ∨ m = 9 ∨ m = 11 then 30
  else 31

/-- `datetime.strptime(f"{y}-{m}-{d}", "%Y-%m-%d")`: succeeds exactly when all
three fields are numeric and form a valid calendar date; any failure raises
`ValueError` in the source, modelled as `none`. -/
def parseYMD (y m d : String) : Option Date :=
  match parseField y 4, parseField m 2, parseField d 2 with
  | some yn, some mn, some dn =>
    if 1 ≤ yn ∧ 1 ≤ mn ∧ mn ≤ 12 ∧ 1 ≤ dn ∧ dn ≤ daysInMonth yn mn then
      some ⟨yn, mn, dn⟩
    else none
  | _, _, _ => none

/-! ## The detail document

Mirrors exactly the XML nodes `_fetch_paper_details` reads: the
`PubmedArticle` node with its `ArticleTitle`, `PubDate` (optional
`Year`/`Month`/`Day` children), `AuthorList` of `Author` nodes
(optional `LastName`/`ForeName`, plus `AffiliationInfo` children each with an
optional `Affiliation` text), and any `AffiliationInfo` nodes of the article
that sit outside the author list (`article.findall(".//AffiliationInfo")`
collects both kinds). -/

structure AffiliationInfo where
  affiliation : Option String
deriving DecidableEq

structure AuthorNode where
  lastName : Option String
  foreName : Option String
  affiliationInfos : List AffiliationInfo
deriving DecidableEq

structure PubDateNode where
  year : Option String
  month : Option String
  day : Option String
deriving DecidableEq

structure ArticleNode where
  articleTitle : Option String
  pubDate : Option PubDateNode
  authorList : Option (List AuthorNode)
  extraAffiliationInfos : List AffiliationInfo
deriving DecidableEq

structure Document where
  article : Option ArticleNode
deriving DecidableEq

/-- `affil.find("Affiliation").text if ... else ""`. -/
def affilText (ai : AffiliationInfo) : String := ai.affiliation.getD ""

/-- The author name appended to `authors`: present only when both `LastName`
and `ForeName` exist, formatted `f"{first_name} {last_name}"`. -/
def authorName (a : AuthorNode) : Option String :=
  match a.lastName, a.foreName with
  | some ln, some fn => some (fn ++ " " ++ ln)
  | _, _ => none

/-- All author names of an author list, in order. -/
def authorNames (l : List AuthorNode) : List String := l.filterMap authorName

/-- The email-scan step for one author: the first of its affiliation texts
containing an "@" (the Python inner loop sets the email and breaks there);
the guard `author.find("AffiliationInfo") is not None` is vacuous for an
empty affiliation list. -/
def firstAtAffil (a : AuthorNode) : Option String :=
  (a.affiliationInfos.map affilText).find? (fun t => t.data.contains '@')

/-- One step of the email scan: an author's first "@"-affiliation, when it
exists, overwrites the running value. -/
def scanStep {α β : Type} (f : α → Option β) (acc : Option β) (a : α) : Option β :=
  match f a with
  | some t => some t
  | none => acc

/-- The whole email scan over the author list, in author order. -/
def emailScan (l : List AuthorNode) : Option String :=
  l.foldl (scanStep firstAtAffil) none

/-- `article.findall(".//AffiliationInfo")`: every affiliation-info node of
the article, authors' nodes first (document order), then the stray ones. -/
def articleAffiliationInfos (ar : ArticleNode) : List AffiliationInfo :=
  ((ar.authorList.getD []).map (fun a => a.affiliationInfos)).flatten
    ++ ar.extraAffiliationInfos

/-- The author nodes of a document (empty when the article or its
`AuthorList` is absent). -/
def articleAuthors (d : Document) : List AuthorNode :=
  match d.article with
  | some ar => ar.authorList.getD []
  | none => []

/-! ## Paper -/

/-- The `Paper` record, with exactly the fields the source populates
(the source passes plain name strings for `authors`). -/
structure Paper where
  pubmed_id : String
  title : String
  publication_date : Date
  authors : List String
  non_academic_authors : List String
  company_affiliations : List String
  corresponding_author_email : Option String
deriving DecidableEq

/-- The pure extraction core of `_fetch_paper_details`, from
`root.find(".//PubmedArticle")` to the `Paper` construction.  `none` covers
the explicit `return None` when no article node exists, the `ValueError` of a
failed `strptime`, and the pydantic `ValidationError` of the `Paper(...)`
call: `Paper.authors` is declared `List[Author]` but receives the plain name
strings built in the loop, so validation fails for every non-empty `authors`
list and only a record with an empty name list is ever constructed (all these
raises are caught by the enclosing handler at the source's line 183). -/
def extractPaper (pmid : String) (d : Document) (now : Date) : Option Paper :=
  match d.article with
  | none => none
  | some article =>
    let title := article.articleTitle.getD "No title available"
    let dateResult : Option Date :=
      match article.pubDate with
      | some pd => parseYMD (pd.year.getD "Unknown") (pd.month.getD "01") (pd.day.getD "01")
      | none => some now
    match dateResult with
    | none => none
    | some pubDate =>
      let authorNodes := article.authorList.getD []
      let authors := authorNames authorNodes
      let email := emailScan authorNodes
      let company :=
        ((articleAffiliationInfos article).map affilText).filter is_company_affiliation
      if authors ≠ [] then none
      else
        some
          { pubmed_id := pmid
            title := title
            publication_date := pubDate
            authors := authors
            non_academic_authors := authors
            company_affiliations := company
            corresponding_author_email := email }

/-! ## RecordCache (`_get_cached_data` / `_cache_data`)

One JSON file per identifier, holding `{timestamp, paper}`.  The store is an
association list from identifier to an optional `(timestamp, payload)` entry;
a `some none` binding stands for a file that exists but cannot be decoded
(the `except` branch of `_get_cached_data`).  `lookupEntry` returns the most
recent binding, so consing a fresh entry models overwriting the file. -/

@[reducible] def CacheStore (α : Type) : Type := List (String × Option (Nat × α))

/-- Whether a cache file exists for `pmid` and, if so, its decoded content. -/
def lookupEntry {α : Type} : CacheStore α → String → Option (Option (Nat × α))
  | [], _ => none
  | (k, v) :: rest, pmid => if k = pmid then some v else lookupEntry rest pmid

/-- `CACHE_EXPIRY = 24 * 60 * 60` seconds. -/
def CACHE_EXPIRY : Nat := 24 * 60 * 60

/-- `_get_cached_data`: absent file, undecodable file, or an entry older than
`CACHE_EXPIRY` all yield `None`; otherwise the stored payload. -/
def get_cached_data {α : Type} (store : CacheStore α) (now : Nat) (pmid : String) : Option α :=
  match lookupEntry store pmid with
  | none => none
  | some none => none
  | some (some (ts, payload)) =>
    if CACHE_EXPIRY < now - ts then none else some payload

/-- `_cache_data`: overwrite the file for `pmid` with the payload and the
current timestamp (the component contract, for a payload `json.dump`
accepts; the write the pipeline attempts is `cache_data_paper` below). -/
def cache_data {α : Type} (store : CacheStore α) (now : Nat) (pmid : String)
    (payload : α) : CacheStore α :=
  (pmid, some (now, payload)) :: store

/-- A value of the dict `paper.dict()` hands to `json.dump`: the
`publication_date` field holds a Python `datetime` object, the rest are
strings, lists of strings, or an optional string. -/
inductive PyValue : Type
  | pyStr : String → PyValue
  | pyDatetime : Date → PyValue
  | pyStrList : List String → PyValue
  | pyOptStr : Option String → PyValue
deriving DecidableEq

/-- `paper.dict()`: the field dictionary of a `Paper`; `publication_date`
maps to a `datetime` object. -/
def paperDict (p : Paper) : List (String × PyValue) :=
  [("pubmed_id", PyValue.pyStr p.pubmed_id),
   ("title", PyValue.pyStr p.title),
   ("publication_date", PyValue.pyDatetime p.publication_date),
   ("authors", PyValue.pyStrList p.authors),
   ("non_academic_authors", PyValue.pyStrList p.non_academic_authors),
   ("company_affiliations", PyValue.pyStrList p.company_affiliations),
   ("corresponding_author_email", PyValue.pyOptStr p.corresponding_author_email)]

/-- Whether `json.dump` can encode one value: it raises `TypeError` on a
`datetime` object and accepts the rest. -/
def jsonEncodable : PyValue → Bool
  | PyValue.pyDatetime _ => false
  | _ => true

/-- Whether `json.dump` can encode a whole dict. -/
def jsonEncodableDict (d : List (String × PyValue)) : Bool :=
  d.all (fun kv => jsonEncodable kv.2)

/-- `_cache_data` as the pipeline invokes it, on `paper.dict()`: the write is
attempted, `json.dump` raises `TypeError` on the `datetime` under
`publication_date`, and the handler at the source's line 84 swallows the
failure, leaving the store unchanged — so the pipeline never populates its
cache. -/
def cache_data_paper (store : CacheStore Paper) (now : Nat) (pmid : String)
    (paper : Paper) : CacheStore Paper :=
  if jsonEncodableDict (paperDict paper) then cache_data store now pmid paper
  else store

/-! ## HttpClient retry wrapper (`_make_request`)

The outcome of the `i`-th network attempt (rate-limit wait, `session.get`,
`raise_for_status`) is given by a function `attempts : Nat → Except E R`.  The
trace records the returned value or the re-raised final failure, the number of
rate-limit waits consumed, and the list of backoff sleeps performed, in
seconds. -/

/-- The `for attempt in range(max_retries)` loop of `_make_request`, with
`remaining = max_retries - attempt` attempts left to run.  Each iteration
consumes one rate-limit wait; on failure with attempts left it sleeps
`retry_delay * (attempt + 1)` and retries, and on the last attempt it
re-raises. -/
def requestGo {E R : Type} (attempts : Nat → Except E R) (retry_delay : Nat) :
    Nat → Nat → Nat → List Nat → Except E R × Nat × List Nat
  | attempt, 0, waits, sleeps =>
    match attempts attempt with
    | Except.ok r => (Except.ok r, waits + 1, sleeps)
    | Except.error e => (Except.error e, waits + 1, sleeps)
  | attempt, 1, waits, sleeps =>
    match attempts attempt with
    | Except.ok r => (Except.ok r, waits + 1, sleeps)
    | Except.error e => (Except.error e, waits + 1, sleeps)
  | attempt, r + 2, waits, sleeps =>
    match attempts attempt with
    | Except.ok r => (Except.ok r, waits + 1, sleeps)
    | Except.error _ =>
      requestGo attempts retry_delay (attempt + 1) (r + 1) (waits + 1)
        (sleeps ++ [retry_delay * (attempt + 1)])

/-- `_make_request` with its hard-coded `max_retries = 3`, `retry_delay = 1`. -/
def make_request {E R : Type} (attempts : Nat → Except E R) :
    Except E R × Nat × List Nat :=
  requestGo attempts 1 0 3 0 []

/-! ## The pipeline (`_fetch_paper_details`, `_process_paper`, `fetch_papers`)

A `World` fixes everything outside the program: the decoded outcome of the
search request (`Except.error` for a raised transport/decode failure,
`Except.ok none` for a response missing `esearchresult`/`idlist`,
`Except.ok (some ids)` for a well-formed identifier list), the outcome of the
detail request per identifier, the wall-clock time used for cache stamps, the
date `datetime.now()` would return, and the initial cache contents. -/

structure World where
  searchResult : Except Unit (Option (List String))
  docs : String → Except Unit Document
  time : Nat
  now : Date
  cache0 : CacheStore Paper

/-- `_fetch_paper_details`: serve from cache when possible; otherwise fetch,
extract, attempt to cache the freshly built record (the attempt always fails
and is dropped, see `cache_data_paper`), and return the record.  Any raised
failure is caught: the identifier yields nothing and the cache is
untouched. -/
def fetch_paper_details (w : World) (cache : CacheStore Paper) (pmid : String) :
    Option Paper × CacheStore Paper :=
  match get_cached_data cache w.time pmid with
  | some p => (some p, cache)
  | none =>
    match w.docs pmid with
    | Except.error _ => (none, cache)
    | Except.ok doc =>
      match extractPaper pmid doc w.now with
      | none => (none, cache)
      | some paper => (some paper, cache_data_paper cache w.time pmid paper)

/-- `_process_paper`: keep the fetched record only when its
`company_affiliations` list is non-empty. -/
def process_paper (w : World) (cache : CacheStore Paper) (pmid : String) :
    Option Paper × CacheStore Paper :=
  match fetch_paper_details w cache pmid with
  | (some paper, cache') =>
    if paper.company_affiliations ≠ [] then (some paper, cache') else (none, cache')
  | (none, cache') => (none, cache')

/-- The `for pmid in pmids` loop of `fetch_papers`, threading the cache and
breaking once `len(papers) >= max_results`. -/
def fetchLoop (w : World) (m : Nat) :
    List String → CacheStore Paper → List Paper → List Paper × CacheStore Paper
  | [], cache, papers => (papers, cache)
  | pmid :: rest, cache, papers =>
    match process_paper w cache pmid with
    | (some p, cache') =>
      let papers' := papers ++ [p]
      if m ≤ papers'.length then (papers', cache') else fetchLoop w m rest cache' papers'
    | (none, cache') => fetchLoop w m rest cache' papers

/-- The body of `fetch_papers` inside its `try`: a raised search failure
propagates as `Except.error`; a malformed search response returns `[]`
normally; otherwise the loop runs over `idlist[:max_results]`. -/
def fetch_papersBody (w : World) (max_results : Nat) :
    Except Unit (List Paper × CacheStore Paper) :=
  match w.searchResult with
  | Except.error e => Except.error e
  | Except.ok none => Except.ok ([], w.cache0)
  | Except.ok (some idlist) =>
    Except.ok (fetchLoop w max_results (idlist.take max_results) w.cache0 [])

/-- `fetch_papers`: the enclosing `except Exception` turns any raised failure
into an empty result list. -/
def fetch_papers (w : World) (max_results : Nat) : List Paper × CacheStore Paper :=
  match fetch_papersBody w max_results with
  | Except.ok r => r
  | Except.error _ => ([], w.cache0)

/-! ## Spec-side definitions

Each of these renders a sentence of the specification literally, to be
compared against the behaviour of the definitions above. -/

/-- Rendered from the spec: the classifier keyword list as the spec states it,
including the generic corporate suffixes, all matched case-insensitively. -/
def specKeywords : List String :=
  ["pharmaceutical", "biotech", "biotechnology", "pharma", "pharmaceuticals",
   "biopharma", "biopharmaceutical", "biopharmaceuticals", "drug company",
   "drug development", "drug discovery", "clinical development", "r&d",
   "research and development", "inc.", "corp.", "corporation", "ltd.",
   "limited", "llc", "gmbh", "laboratories"]

/-- Rendered from the spec: case-insensitive substring match against
`specKeywords`. -/
def spec_is_industry (s : String) : Bool :=
  specKeywords.any (fun keyword => containsSub keyword.data (lowerStr s))

/-- Rendered from the spec: the author name per the extraction contract,
"the concatenation of given-name and family-name fields (absent name parts
omitted, not error)". -/
def specAuthorName (a : AuthorNode) : Option String :=
  match a.foreName, a.lastName with
  | some fn, some ln => some (fn ++ " " ++ ln)
  | some fn, none => some fn
  | none, some ln => some ln
  | none, none => none

/-- Rendered from the spec: the names of exactly those authors having at
least one industry-classified affiliation. -/
def specNonAcademic (l : List AuthorNode) : List String :=
  (l.filter (fun a => (a.affiliationInfos.map affilText).any is_company_affiliation)).filterMap
    specAuthorName

/-- Rendered from the spec: the first "@"-containing affiliation string found
anywhere in the document, in document order. -/
def specFirstEmail (d : Document) : Option String :=
  match d.article with
  | some ar => ((articleAffiliationInfos ar).map affilText).find? (fun t => t.data.contains '@')
  | none => none

/-- The first "@"-containing affiliation text of the last author that has
one: the value the code's scan actually records. -/
def lastAuthorEmail (l : List AuthorNode) : Option String :=
  (l.filterMap firstAtAffil).getLast?

/-- Every industry-classified affiliation text of the document, in node
order, duplicates preserved. -/
def documentCompanyAffiliations (d : Document) : List String :=
  match d.article with
  | some ar => ((articleAffiliationInfos ar).map affilText).filter is_company_affiliation
  | none => []

/-! ## Concrete documents, worlds, and records used as test inputs -/

def nowD : Date := ⟨2024, 1, 1⟩

def affAcme : AffiliationInfo := ⟨some "Acme Pharma"⟩

def affUni : AffiliationInfo := ⟨some "State University"⟩

def authAnn : AuthorNode := ⟨some "Alpha", some "Ann", [affAcme]⟩

/-- A `LastName`-only author (no `ForeName`) with an industry affiliation:
the code builds no name for it, so `Paper(...)` survives validation. -/
def authDoeAcme : AuthorNode := ⟨some "Doe", none, [affAcme]⟩

/-- A `LastName`-only author with an academic affiliation. -/
def authDoeUni : AuthorNode := ⟨some "Doe", none, [affUni]⟩

/-- One partially-named author with an industry affiliation. -/
def doc1 : Document :=
  ⟨some ⟨some "T1", some ⟨some "2023", some "05", some "10"⟩, some [authDoeAcme], []⟩⟩

def W1 : World :=
  ⟨Except.ok (some ["1"]),
   fun pmid => if pmid = "1" then Except.ok doc1 else Except.error (),
   0, nowD, []⟩

def paper1 : Paper :=
  ⟨"1", "T1", ⟨2023, 5, 10⟩, [], [], ["Acme Pharma"], none⟩

/-- A fully-named author: the name strings built for it make the `Paper(...)`
call raise a pydantic `ValidationError`, so no record survives. -/
def docNamed : Document :=
  ⟨some ⟨some "TN", some ⟨some "2023", some "05", some "10"⟩, some [authAnn], []⟩⟩

/-- One `LastName`-only author whose sole affiliation is industry. -/
def doc3 : Document :=
  ⟨some ⟨some "T3", some ⟨some "2023", none, none⟩, some [authDoeAcme], []⟩⟩

def W3 : World :=
  ⟨Except.ok (some ["3"]),
   fun pmid => if pmid = "3" then Except.ok doc3 else Except.error (),
   0, nowD, []⟩

def paper3 : Paper :=
  ⟨"3", "T3", ⟨2023, 1, 1⟩, [], [], ["Acme Pharma"], none⟩

/-- Two partially-named authors, each with an "@"-containing affiliation. -/
def doc5 : Document :=
  ⟨some ⟨some "T5", some ⟨some "2023", some "05", some "10"⟩,
    some [⟨some "Alpha", none, [⟨some "Lab a@x"⟩]⟩,
          ⟨some "Beta", none, [⟨some "Lab b@y"⟩]⟩], []⟩⟩

/-- `PubDate` present but with no `Year` child. -/
def doc6y : Document :=
  ⟨some ⟨some "T6", some ⟨none, some "07", some "15"⟩, some [authAnn], []⟩⟩

/-- `PubDate` present with a `Year` but no `Month`/`Day` children. -/
def doc6md : Document :=
  ⟨some ⟨some "T6", some ⟨some "2023", none, none⟩, none, []⟩⟩

/-- One unnamed author carrying the same industry affiliation text in two
distinct affiliation-info nodes. -/
def doc7 : Document :=
  ⟨some ⟨some "T7", some ⟨some "2023", some "05", some "10"⟩,
    some [⟨none, none, [affAcme, affAcme]⟩], []⟩⟩

def W7 : World :=
  ⟨Except.ok (some ["7"]),
   fun pmid => if pmid = "7" then Except.ok doc7 else Except.error (),
   0, nowD, []⟩

/-- A world whose search request raises; its detail document for "1" is the
fully-named-author document, whose assembly fails. -/
def W4 : World :=
  ⟨Except.error (),
   fun pmid => if pmid = "1" then Except.ok docNamed else Except.error (),
   0, nowD, []⟩

/-- A document whose only author is partially named and academic: the
extracted record has an empty `company_affiliations`. -/
def docE : Document :=
  ⟨some ⟨some "TE", some ⟨some "2023", some "05", some "10"⟩, some [authDoeUni], []⟩⟩

def paperE : Paper :=
  ⟨"9", "TE", ⟨2023, 5, 10⟩, [], [], [], none⟩

def W10 : World :=
  ⟨Except.ok (some ["9"]),
   fun pmid => if pmid = "9" then Except.ok docE else Except.error (),
   0, nowD, []⟩

/-- A later-session world: every network request fails and the clock has
advanced by 5 since time 0. -/
def W10b : World :=
  ⟨Except.ok (some ["9"]), fun _ => Except.error (), 5, nowD, []⟩

/-- An attempt schedule whose first two attempts raise and whose third
succeeds. -/
def attemptsW : Nat → Except Nat String :=
  fun i => if i < 2 then Except.error i else Except.ok "ok"

/-! ## Helper lemmas -/

theorem isPrefixOfCL_iff : ∀ (n h : List Char), isPrefixOfCL n h = true ↔ ∃ post, n ++ post = h
  | [], h => by simp [isPrefixOfCL]
  | a :: as, [] => by simp [isPrefixOfCL]
  | a :: as, b :: bs => by
    simp only [isPrefixOfCL, Bool.and_eq_true, beq_iff_eq]
    constructor
    · rintro ⟨rfl, hp⟩
      obtain ⟨post, rfl⟩ := (isPrefixOfCL_iff as bs).1 hp
      exact ⟨post, rfl⟩
    · rintro ⟨post, heq⟩
      rw [List.cons_append] at heq
      injection heq with h1 h2
      exact ⟨h1, (isPrefixOfCL_iff as bs).2 ⟨post, h2⟩⟩

theorem containsSub_iff (n : List Char) :
    ∀ (h : List Char), containsSub n h = true ↔ ∃ pre post, pre ++ n ++ post = h
  | [] => by
    rw [containsSub, isPrefixOfCL_iff]
    constructor
    · rintro ⟨post, heq⟩
      exact ⟨[], post, by simpa using heq⟩
    · rintro ⟨pre, post, heq⟩
      rcases List.append_eq_nil.1 (List.append_assoc pre n post ▸ heq) with ⟨h1, h2⟩
      rcases List.append_eq_nil.1 h2 with ⟨h3, h4⟩
      exact ⟨post, by simp [h3, h4]⟩
  | c :: t => by
    rw [containsSub, Bool.or_eq_true, isPrefixOfCL_iff, containsSub_iff n t]
    constructor
    · rintro (⟨post, heq⟩ | ⟨pre, post, heq⟩)
      · exact ⟨[], post, by simpa using heq⟩
      · exact ⟨c :: pre, post, by simp [heq]⟩
    · rintro ⟨pre, post, heq⟩
      cases pre with
      | nil => exact Or.inl ⟨post, by simpa using heq⟩
      | cons p ps =>
        rw [List.cons_append, List.cons_append] at heq
        injection heq with h1 h2
        exact Or.inr ⟨ps, post, by simpa using h2⟩

theorem getLast?_cons_eq {β : Type} (b : β) (ys : List β) :
    (b :: ys).getLast? = some (ys.getLast?.getD b) := by
  induction ys generalizing b with
  | nil => rfl
  | cons c cs ih => rw [List.getLast?_cons_cons, ih c]; simp

theorem foldl_override {α β : Type} (f : α → Option β) (l : List α) :
    ∀ acc : Option β,
      l.foldl (scanStep f) acc
        = match (l.filterMap f).getLast? with | some t => some t | none => acc := by
  induction l with
  | nil => intro acc; rfl
  | cons x xs ih =>
    intro acc
    rw [List.foldl_cons, ih, List.filterMap_cons]
    cases hfx : f x with
    | none => simp [scanStep, hfx]
    | some b =>
      rw [getLast?_cons_eq]
      cases hys : (List.filterMap f xs).getLast? with
      | none => simp [scanStep, hfx]
      | some t => simp

theorem emailScan_eq_lastAuthorEmail (l : List AuthorNode) :
    emailScan l = lastAuthorEmail l := by
  rw [emailScan, lastAuthorEmail, foldl_override firstAtAffil l none]
  cases (l.filterMap firstAtAffil).getLast? <;> rfl

theorem extractPaper_fields (pmid : String) (d : Document) (now : Date) (paper : Paper)
    (h : extractPaper pmid d now = some paper) :
    paper.pubmed_id = pmid ∧
    paper.authors = authorNames (articleAuthors d) ∧
    paper.non_academic_authors = authorNames (articleAuthors d) ∧
    paper.company_affiliations = documentCompanyAffiliations d ∧
    paper.corresponding_author_email = emailScan (articleAuthors d) ∧
    authorNames (articleAuthors d) = [] := by
  simp only [extractPaper] at h
  split at h
  · exact absurd h (by simp)
  · rename_i article harticle
    split at h
    · exact absurd h (by simp)
    · rename_i pubDate hdr
      split at h
      · exact absurd h (by simp)
      · rename_i hnames
        rw [not_not] at hnames
        injection h with h'
        subst h'
        refine ⟨rfl, ?_, ?_, ?_, ?_, ?_⟩ <;>
          simp [articleAuthors, documentCompanyAffiliations, harticle, hnames]

theorem process_paper_company (w : World) (cache : CacheStore Paper) (pmid : String)
    (p : Paper) (c' : CacheStore Paper)
    (h : process_paper w cache pmid = (some p, c')) :
    p.company_affiliations ≠ [] := by
  unfold process_paper at h
  split at h
  · rename_i paper cache'' hfd
    split at h
    · rename_i hne
      simp only [Prod.mk.injEq, Option.some.inj] at h
      obtain ⟨h1, h2⟩ := h
      rw [Option.some_inj] at h1
      subst h1
      exact hne
    · simp at h
  · simp at h

theorem fetchLoop_company (w : World) (m : Nat) :
    ∀ (pmids : List String) (cache : CacheStore Paper) (papers : List Paper),
      (∀ p ∈ papers, p.company_affiliations ≠ []) →
      ∀ p ∈ (fetchLoop w m pmids cache papers).1, p.company_affiliations ≠ [] := by
  intro pmids
  induction pmids with
  | nil => intro cache papers hinv p hp; exact hinv p hp
  | cons pmid rest ih =>
    intro cache papers hinv p hp
    rw [fetchLoop] at hp
    cases hpp : process_paper w cache pmid with
    | mk o cache' =>
      cases o with
      | some q =>
        rw [hpp] at hp
        simp only at hp
        have hq : q.company_affiliations ≠ [] :=
          process_paper_company w cache pmid q cache' hpp
        by_cases hm : m ≤ (papers ++ [q]).length
        · rw [if_pos hm] at hp
          rcases List.mem_append.1 hp with hmem | hmem
          · exact hinv p hmem
          · rw [List.mem_singleton] at hmem; subst hmem; exact hq
        · rw [if_neg hm] at hp
          refine ih cache' (papers ++ [q]) ?_ p hp
          intro r hr
          rcases List.mem_append.1 hr with hmem | hmem
          · exact hinv r hmem
          · rw [List.mem_singleton] at hmem; subst hmem; exact hq
      | none =>
        rw [hpp] at hp
        exact ih cache' papers hinv p hp

/-! ## Claims -/

/-- C1: the list returned by `fetch_papers` contains no Paper with an empty
`company_affiliations`, for any input, including worlds whose documents carry
only non-matching affiliations. -/
theorem fetch_papers_nonempty_company (w : World) (m : Nat) (p : Paper)
    (hp : p ∈ (fetch_papers w m).1) : p.company_affiliations ≠ [] := by
  unfold fetch_papers fetch_papersBody at hp
  cases hs : w.searchResult with
  | error e => rw [hs] at hp; simp at hp
  | ok o =>
    cases o with
    | none => rw [hs] at hp; simp at hp
    | some ids =>
      rw [hs] at hp
      simp only at hp
      exact fetchLoop_company w m (ids.take m) w.cache0 [] (by simp) p hp

/-- Witness for C1: a concrete world whose single document qualifies; the
returned paper indeed has a non-empty `company_affiliations`. -/
theorem fetch_papers_nonempty_company_witness :
    paper1 ∈ (fetch_papers W1 5).1 ∧ paper1.company_affiliations ≠ [] :=
  ⟨by decide, fetch_papers_nonempty_company W1 5 paper1 (by decide)⟩

/-- C2 counterexample: "Widgets Inc." contains the spec keyword "inc."
(case-insensitively), so the claimed contract answers true, but the code's
classifier answers false — its keyword list carries no generic corporate
suffixes. -/
theorem classifier_misses_corporate_suffix :
    containsSub "inc.".data (lowerStr "Widgets Inc.") = true ∧
    spec_is_industry "Widgets Inc." = true ∧
    is_company_affiliation "Widgets Inc." = false := by decide

/-- C2 amended: the classifier returns true exactly when the lower-cased
affiliation text contains one of the eighteen keywords hard-coded in
`_is_company_affiliation` as a contiguous substring (a list without the
generic corporate suffixes; its "R&D" entry, kept in upper case, can never
occur in a lower-cased text). -/
theorem is_company_affiliation_iff (s : String) :
    is_company_affiliation s = true ↔
      ∃ k ∈ companyKeywords, ∃ pre post : List Char, pre ++ k.data ++ post = lowerStr s := by
  simp only [is_company_affiliation, List.any_eq_true, containsSub_iff]

/-- C3 counterexample: `doc3`'s only author has the industry affiliation
"Acme Pharma" and a name per the spec's extraction contract ("Doe", absent
name parts omitted), so the claim requires `non_academic_authors = ["Doe"]`;
yet the paper the pipeline assembles and returns has an empty
`non_academic_authors` — the code builds a name only from a ForeName AND a
LastName, and any document with such a fully-named author fails the
`Paper(...)` pydantic validation and is dropped entirely. -/
theorem non_academic_not_filtered :
    (fetch_papers W3 5).1.map (fun p => p.non_academic_authors) = [[]] ∧
    specNonAcademic (articleAuthors doc3) = ["Doe"] ∧
    is_company_affiliation "Acme Pharma" = true := by decide

/-- C3 amended: `non_academic_authors` of every assembled Paper is a verbatim
copy of the code's author-name list, which is empty in every Paper that
survives construction: the code builds "First Last" only when both name
parts are present, and a document containing such a fully-named author makes
`Paper(...)` raise (authors declared `List[Author]`, given plain strings)
and be dropped — so no author name, industry-affiliated or not, is ever
listed. -/
theorem non_academic_always_empty (pmid : String) (d : Document) (now : Date)
    (paper : Paper) (h : extractPaper pmid d now = some paper) :
    paper.non_academic_authors = authorNames (articleAuthors d) ∧
    paper.non_academic_authors = [] ∧
    paper.authors = [] := by
  obtain ⟨-, h1, h2, -, -, h6⟩ := extractPaper_fields pmid d now paper h
  exact ⟨h2, h2.trans h6, h1.trans h6⟩

/-- Witness for C3 amended, at the concrete document `doc3`. -/
theorem non_academic_always_empty_witness :
    paper3.non_academic_authors = authorNames (articleAuthors doc3) ∧
    paper3.non_academic_authors = [] ∧
    paper3.authors = [] :=
  non_academic_always_empty "3" doc3 nowD paper3 (by decide)

/-- C4 counterexample: in `W4` the search request raises, yet `fetch_papers`
returns normally with the empty list — the failure of the try-protected body
is swallowed, not surfaced to the caller. -/
theorem search_error_does_not_surface :
    fetch_papersBody W4 5 = Except.error () ∧
    fetch_papers W4 5 = ([], W4.cache0) := ⟨rfl, rfl⟩

/-- C4 amended: error handling is uniformly non-propagating — a raised search
failure is caught inside `fetch_papers`, which returns the empty list; a
failure at any per-identifier stage — a raised detail request, or a failed
extraction/assembly of a fetched document (no article node, unparseable
date, `Paper` validation failure) — yields nothing for that identifier and
the loop continues with the next one. -/
theorem fetch_papers_error_swallowing :
    (∀ (w : World) (m : Nat), w.searchResult = Except.error () →
        fetch_papers w m = ([], w.cache0)) ∧
    (∀ (w : World) (cache : CacheStore Paper) (pmid : String),
        get_cached_data cache w.time pmid = none →
        w.docs pmid = Except.error () →
        process_paper w cache pmid = (none, cache)) ∧
    (∀ (w : World) (cache : CacheStore Paper) (pmid : String) (doc : Document),
        get_cached_data cache w.time pmid = none →
        w.docs pmid = Except.ok doc →
        extractPaper pmid doc w.now = none →
        process_paper w cache pmid = (none, cache)) ∧
    (∀ (w : World) (m : Nat) (cache cache' : CacheStore Paper) (papers : List Paper)
        (pmid : String) (rest : List String),
        process_paper w cache pmid = (none, cache') →
        fetchLoop w m (pmid :: rest) cache papers = fetchLoop w m rest cache' papers) := by
  refine ⟨?_, ?_, ?_, ?_⟩
  · intro w m hs
    unfold fetch_papers fetch_papersBody
    rw [hs]
  · intro w cache pmid hc hd
    unfold process_paper fetch_paper_details
    rw [hc, hd]
  · intro w cache pmid doc hc hd he
    simp only [process_paper, fetch_paper_details, hc, hd, he]
  · intro w m cache cache' papers pmid rest hpp
    rw [fetchLoop, hpp]

/-- Witness for C4 amended, at the concrete world `W4`: failing search, a
failing detail request for the unknown identifier "z", and a fetched document
("1" ↦ `docNamed`) whose assembly fails on its fully-named author. -/
theorem fetch_papers_error_swallowing_witness :
    fetch_papers W4 5 = ([], W4.cache0) ∧
    process_paper W4 ([] : CacheStore Paper) "z" = (none, []) ∧
    process_paper W4 ([] : CacheStore Paper) "1" = (none, []) ∧
    fetchLoop W4 5 ["z"] [] [] = fetchLoop W4 5 [] [] [] :=
  ⟨fetch_papers_error_swallowing.1 W4 5 rfl,
   fetch_papers_error_swallowing.2.1 W4 [] "z" rfl rfl,
   fetch_papers_error_swallowing.2.2.1 W4 [] "1" docNamed rfl rfl (by decide),
   fetch_papers_error_swallowing.2.2.2 W4 5 [] [] [] "z" []
     (fetch_papers_error_swallowing.2.1 W4 [] "z" rfl rfl)⟩

/-- C5 counterexample: in `doc5` both authors carry an "@"-affiliation; the
first one found in document order is "Lab a@x", but the recorded value is the
second author's "Lab b@y" — each author's scan overwrites the previous value,
because the source's `break` only leaves the inner affiliation loop. -/
theorem email_not_first_in_document :
    (extractPaper "5" doc5 nowD).map (fun p => p.corresponding_author_email)
      = some (some "Lab b@y") ∧
    specFirstEmail doc5 = some "Lab a@x" := by decide

/-- C5 amended: the recorded `corresponding_author_email` is the first
"@"-containing affiliation of the last author (in document order) that has
one, and is absent when no author affiliation contains "@"; affiliation nodes
outside the author list are never scanned for it. -/
theorem email_is_last_author_match (pmid : String) (d : Document) (now : Date)
    (paper : Paper) (h : extractPaper pmid d now = some paper) :
    paper.corresponding_author_email = lastAuthorEmail (articleAuthors d) := by
  obtain ⟨-, -, -, -, h5, -⟩ := extractPaper_fields pmid d now paper h
  rw [h5, emailScan_eq_lastAuthorEmail]

/-- Witness for C5 amended, at the concrete two-author document `doc5`. -/
theorem email_is_last_author_match_witness :
    (⟨"5", "T5", ⟨2023, 5, 10⟩, [], [], [], some "Lab b@y"⟩ :
      Paper).corresponding_author_email = lastAuthorEmail (articleAuthors doc5) :=
  email_is_last_author_match "5" doc5 nowD _ (by decide)

/-- C6: the Month and Day defaults do work, but a missing Year is replaced by
the string "Unknown", which `strptime("%Y-%m-%d")` cannot parse: the raised
`ValueError` is caught by the blanket handler and the record is dropped,
where the claim (and the code's own defaulting intent) expects a sentinel
year and a record. -/
theorem missing_year_drops_record :
    parseYMD "Unknown" "07" "15" = none ∧
    extractPaper "6" doc6y nowD = none ∧
    (extractPaper "6" doc6md nowD).map (fun p => p.publication_date)
      = some ⟨2023, 1, 1⟩ := by decide

/-- C7 counterexample: the same affiliation text, present in two distinct
affiliation nodes of `doc7`, appears twice in the `company_affiliations` of
the paper the pipeline returns — the field is a plain list, never
deduplicated. -/
theorem company_affiliations_duplicated :
    (fetch_papers W7 5).1.map (fun p => p.company_affiliations)
      = [["Acme Pharma", "Acme Pharma"]] ∧
    ((fetch_papers W7 5).1.map (fun p => p.company_affiliations.count "Acme Pharma"))
      = [2] := by decide

/-- C7 amended: `company_affiliations` of every assembled Paper is the list,
in document node order and with duplicates preserved, of exactly those
affiliation texts of the document that the classifier accepts. -/
theorem company_affiliations_in_node_order (pmid : String) (d : Document) (now : Date)
    (paper : Paper) (h : extractPaper pmid d now = some paper) :
    paper.company_affiliations = documentCompanyAffiliations d ∧
    ∀ s ∈ paper.company_affiliations, is_company_affiliation s = true := by
  obtain ⟨-, -, -, h4, -, -⟩ := extractPaper_fields pmid d now paper h
  refine ⟨h4, ?_⟩
  intro s hs
  rw [h4] at hs
  unfold documentCompanyAffiliations at hs
  cases harticle : d.article with
  | none => rw [harticle] at hs; simp at hs
  | some article =>
    rw [harticle] at hs
    exact (List.mem_filter.1 hs).2

/-- Witness for C7 amended, at the duplicated-node document `doc7`. -/
theorem company_affiliations_in_node_order_witness :
    (⟨"7", "T7", ⟨2023, 5, 10⟩, [], [],
      ["Acme Pharma", "Acme Pharma"], none⟩ : Paper).company_affiliations
        = documentCompanyAffiliations doc7 ∧
    ∀ s ∈ (⟨"7", "T7", ⟨2023, 5, 10⟩, [], [],
      ["Acme Pharma", "Acme Pharma"], none⟩ : Paper).company_affiliations,
        is_company_affiliation s = true :=
  company_affiliations_in_node_order "7" doc7 nowD _ (by decide)

/-- A fresh put is the most recent binding for its identifier. -/
theorem lookupEntry_put {α : Type} (store : CacheStore α) (t : Nat) (pmid : String)
    (payload : α) :
    lookupEntry (cache_data store t pmid payload) pmid = some (some (t, payload)) := by
  unfold cache_data lookupEntry
  rw [if_pos rfl]

/-- C8: cache round-trip — a `put` followed by a `get` within the 24-hour
expiry window returns the stored payload; once strictly more than the expiry
has elapsed the entry is treated as absent; and `get` is absent both when no
entry exists and when the entry cannot be decoded. -/
theorem cache_roundtrip_spec {α : Type} (store : CacheStore α) (t t' : Nat)
    (pmid : String) (payload : α) :
    (t' - t ≤ CACHE_EXPIRY →
      get_cached_data (cache_data store t pmid payload) t' pmid = some payload) ∧
    (CACHE_EXPIRY < t' - t →
      get_cached_data (cache_data store t pmid payload) t' pmid = none) ∧
    (∀ now, lookupEntry store pmid = none → get_cached_data store now pmid = none) ∧
    (∀ now, lookupEntry store pmid = some none → get_cached_data store now pmid = none) := by
  refine ⟨?_, ?_, ?_, ?_⟩
  · intro h
    unfold get_cached_data
    rw [lookupEntry_put]
    show (if CACHE_EXPIRY < t' - t then (none : Option α) else some payload) = some payload
    rw [if_neg (Nat.not_lt.2 h)]
  · intro h
    unfold get_cached_data
    rw [lookupEntry_put]
    show (if CACHE_EXPIRY < t' - t then (none : Option α) else some payload) = none
    rw [if_pos h]
  · intro now h
    unfold get_cached_data
    rw [h]
  · intro now h
    unfold get_cached_data
    rw [h]

/-- Witness for C8: a fresh put read back at once, after the expiry, a missing
entry, and an undecodable entry, all at concrete values. -/
theorem cache_roundtrip_spec_witness :
    get_cached_data (cache_data ([] : CacheStore Nat) 0 "7" 42) 0 "7" = some 42 ∧
    get_cached_data (cache_data ([] : CacheStore Nat) 0 "7" 42) 90000 "7" = none ∧
    get_cached_data ([] : CacheStore Nat) 0 "7" = none ∧
    get_cached_data [("7", (none : Option (Nat × Nat)))] 0 "7" = none :=
  ⟨(cache_roundtrip_spec [] 0 0 "7" 42).1 (by decide),
   (cache_roundtrip_spec [] 0 90000 "7" 42).2.1 (by decide),
   (cache_roundtrip_spec ([] : CacheStore Nat) 0 0 "7" 42).2.2.1 0 rfl,
   (cache_roundtrip_spec [("7", (none : Option (Nat × Nat)))] 0 0 "7" 42).2.2.2 0 rfl⟩

/-- C9: the request wrapper makes at most 3 attempts, consumes one rate-limit
wait per attempt (retried attempts included), sleeps 1s after the first
failure and 2s after the second, returns the first successful response, and
after the third failed attempt re-raises the last failure. -/
theorem make_request_spec {E R : Type} (attempts : Nat → Except E R) :
    (make_request attempts).2.1 ≤ 3 ∧
    (∀ r, attempts 0 = Except.ok r → make_request attempts = (Except.ok r, 1, [])) ∧
    (∀ e0 r, attempts 0 = Except.error e0 → attempts 1 = Except.ok r →
        make_request attempts = (Except.ok r, 2, [1])) ∧
    (∀ e0 e1 r, attempts 0 = Except.error e0 → attempts 1 = Except.error e1 →
        attempts 2 = Except.ok r →
        make_request attempts = (Except.ok r, 3, [1, 2])) ∧
    (∀ e0 e1 e2, attempts 0 = Except.error e0 → attempts 1 = Except.error e1 →
        attempts 2 = Except.error e2 →
        make_request attempts = (Except.error e2, 3, [1, 2])) := by
  refine ⟨?_, ?_, ?_, ?_, ?_⟩
  · rcases h0 : attempts 0 with e0 | r0
    · rcases h1 : attempts 1 with e1 | r1
      · rcases h2 : attempts 2 with e2 | r2
        · simp [make_request, requestGo, h0, h1, h2]
        · simp [make_request, requestGo, h0, h1, h2]
      · simp [make_request, requestGo, h0, h1]
    · simp [make_request, requestGo, h0]
  · intro r h0
    simp [make_request, requestGo, h0]
  · intro e0 r h0 h1
    simp [make_request, requestGo, h0, h1]
  · intro e0 e1 r h0 h1 h2
    simp [make_request, requestGo, h0, h1, h2]
  · intro e0 e1 e2 h0 h1 h2
    simp [make_request, requestGo, h0, h1, h2]

/-- Witness for C9: two failing attempts followed by a success yield the
successful response after exactly 3 rate-limit waits and backoff sleeps of
1s then 2s. -/
theorem make_request_spec_witness :
    make_request attemptsW = (Except.ok "ok", 3, [1, 2]) :=
  (make_request_spec attemptsW).2.2.2.1 0 1 "ok" rfl rfl rfl

/-- C10 counterexample: the pipeline never populates its cache.  In `W10` the
document for "9" is fetched and extracted successfully, yet the cache after
the call is still empty (`json.dump` raised on the `datetime` in
`paper.dict()` and `_cache_data` swallowed it); a later fetch of the same
identifier in a world whose network fails therefore yields nothing instead of
the claimed verbatim cached record. -/
theorem cache_never_populated :
    fetch_paper_details W10 [] "9" = (some paperE, ([] : CacheStore Paper)) ∧
    jsonEncodableDict (paperDict paperE) = false ∧
    fetch_paper_details W10b [] "9" = (none, ([] : CacheStore Paper)) := by decide

/-- C10 amended: the assembled record is handed to `_cache_data` before the
company-affiliation filter runs, but the write always fails — `json.dump`
raises `TypeError` on the `datetime` stored under `publication_date` of
`paper.dict()` — and is silently dropped, so a successful extraction leaves
the cache unchanged and the pipeline never populates it; a later fetch of the
same identifier goes back to the network and re-extracts.  Only the read path
works: an entry already present in the cache (written by some external means)
and no older than the expiry is returned verbatim with no network call, the
same for every `docs` environment. -/
theorem cache_write_always_dropped :
    (∀ paper : Paper, jsonEncodableDict (paperDict paper) = false) ∧
    (∀ (w : World) (cache : CacheStore Paper) (pmid : String) (doc : Document)
        (paper : Paper),
        get_cached_data cache w.time pmid = none →
        w.docs pmid = Except.ok doc →
        extractPaper pmid doc w.now = some paper →
        fetch_paper_details w cache pmid = (some paper, cache)) ∧
    (∀ (w : World) (cache : CacheStore Paper) (t : Nat) (pmid : String) (paper : Paper),
        w.time - t ≤ CACHE_EXPIRY →
        fetch_paper_details w (cache_data cache t pmid paper) pmid
          = (some paper, cache_data cache t pmid paper)) := by
  refine ⟨?_, ?_, ?_⟩
  · intro paper
    rfl
  · intro w cache pmid doc paper hc hd he
    have hdrop : cache_data_paper cache w.time pmid paper = cache := by
      unfold cache_data_paper
      rw [if_neg]
      intro hser
      exact absurd hser (by simp [jsonEncodableDict, paperDict, jsonEncodable])
    simp only [fetch_paper_details, hc, hd, he, hdrop]
  · intro w cache t pmid paper h
    have hhit : get_cached_data (cache_data cache t pmid paper) w.time pmid = some paper := by
      unfold get_cached_data
      rw [lookupEntry_put]
      show (if CACHE_EXPIRY < w.time - t then (none : Option Paper) else some paper) = some paper
      rw [if_neg (Nat.not_lt.2 h)]
    simp only [fetch_paper_details, hhit]

/-- Witness for C10 amended: the record for `docE` is extracted but the cache
stays empty; a pre-seeded cache entry is served verbatim in a later world
whose every network request fails. -/
theorem cache_write_always_dropped_witness :
    jsonEncodableDict (paperDict paperE) = false ∧
    fetch_paper_details W10 [] "9" = (some paperE, ([] : CacheStore Paper)) ∧
    fetch_paper_details W10b (cache_data [] 0 "9" paperE) "9"
      = (some paperE, cache_data [] 0 "9" paperE) :=
  ⟨cache_write_always_dropped.1 paperE,
   cache_write_always_dropped.2.1 W10 [] "9" docE paperE rfl rfl (by decide),
   cache_write_always_dropped.2.2 W10b [] 0 "9" paperE (by decide)⟩
